import Mathlib

/-!
Shallow embedding of the gold price comparison app (`app.py`): the spot-price
resolver `get_spot_usd_per_oz`, the historical series fetcher
`get_stooq_series`, the date helpers `years_ago_date` and `closest_price`,
and the derived metrics.  Network fetches are modelled as already-performed:
each fetched body is a parameter (`none` = the fetch or `json.loads` raised).
Python floats are modelled as exact rationals; Python exceptions inside a
`try` block are modelled with `Except`/`Option`, a raised exception reaching
an enclosing `except Exception` handler becoming `none` for that source.
-/

/-- A JSON value as produced by `json.loads`: objects keep their key/value
pairs in order (a repeated key's last value wins on lookup, as in a Python
dict built by the parser). -/
inductive JVal where
  | jnull
  | jbool (b : Bool)
  | jnum (q : ℚ)
  | jstr (s : String)
  | jarr (xs : List JVal)
  | jobj (fields : List (String × JVal))

/-- Python truthiness of a JSON value (`if obj["items"]:`). -/
def truthy : JVal → Bool
  | .jnull => false
  | .jbool b => b
  | .jnum q => !(q == 0)
  | .jstr s => !(s == "")
  | .jarr xs => !xs.isEmpty
  | .jobj fs => !fs.isEmpty

/-- Dict lookup: `k in d` / `d[k]`.  The last binding of a repeated key wins,
as in the dict `json.loads` builds. -/
def dictLookup (fs : List (String × JVal)) (k : String) : Option JVal :=
  (fs.reverse.find? (fun p => p.1 == k)).map (fun p => p.2)

/-- `isinstance(v, (int, float))`.  Python's `bool` is a subclass of `int`,
so JSON `true`/`false` pass this test as well. -/
def isNumLike : JVal → Bool
  | .jnum _ => true
  | .jbool _ => true
  | _ => false

/-- `float(v)` for a value passing `isNumLike`. -/
def numVal : JVal → ℚ
  | .jnum q => q
  | .jbool b => if b then 1 else 0
  | _ => 0

/-- The field names tried on a JSON mapping, in the source's order
(`for k in ("xauPrice","price","ask","lastPrice")`). -/
def PRIORITY_KEYS : List String := ["xauPrice", "price", "ask", "lastPrice"]

/-- `for k in (...): if k in d and isinstance(d[k], (int,float)): return float(d[k])`
over a dict's fields: first key that is present with a numeric value. -/
def scanKeys (fs : List (String × JVal)) : Option ℚ :=
  PRIORITY_KEYS.findSome? (fun k =>
    match dictLookup fs k with
    | some v => if isNumLike v then some (numVal v) else none
    | none => none)

/-- `items_val[0]` in Python: subscripting by the int `0`.  Lists index,
strings index (first character), dicts raise `KeyError` (their keys are
strings here), numbers/bools/null raise `TypeError`.  `.error` is a raised
exception. -/
def sub0 : JVal → Except Unit JVal
  | .jarr (x :: _) => .ok x
  | .jarr [] => .error ()
  | .jstr s =>
    match s.data with
    | c :: _ => .ok (.jstr (String.mk [c]))
    | [] => .error ()
  | _ => .error ()

/-- Does `pat` occur at the start of the second list? -/
def startsWithChars : List Char → List Char → Bool
  | [], _ => true
  | _ :: _, [] => false
  | p :: ps, c :: cs => p == c && startsWithChars ps cs

/-- Python `sub in s` on strings: contiguous substring occurrence. -/
def hasSubChars (pat : List Char) : List Char → Bool
  | [] => startsWithChars pat []
  | c :: cs => startsWithChars pat (c :: cs) || hasSubChars pat cs

/-- The loop `for k in (...): if k in item and isinstance(item[k], ...)` when
`item` need not be a dict.  On a dict it is `scanKeys`; on a string `k in item`
is a substring test and a hit makes `item[k]` raise `TypeError`; on a list
`k in item` is membership and a hit makes `item[k]` raise `TypeError`; on a
number, bool or null `k in item` itself raises `TypeError`. -/
def scanItemKeys (item : JVal) : Except Unit (Option ℚ)  :=
  match item with
  | .jobj fs => .ok (scanKeys fs)
  | .jstr s =>
    if PRIORITY_KEYS.any (fun k => hasSubChars k.data s.data) then .error ()
    else .ok none
  | .jarr xs =>
    if PRIORITY_KEYS.any (fun k => xs.any (fun v =>
        match v with
        | .jstr s => s == k
        | _ => false)) then .error ()
    else .ok none
  | _ => .error ()

/-- The body of the per-candidate `try` in `get_spot_usd_per_oz`, lines
42-50, given the parsed JSON of one candidate endpoint.  `none` means the
candidate produced no value (either it fell through without returning, or an
exception was raised and swallowed by `except Exception: continue`). -/
def parseCandidate (obj : JVal) : Option ℚ :=
  match obj with
  | .jobj fields =>
    match dictLookup fields "items" with
    | some itemsVal =>
      if truthy itemsVal then
        match sub0 itemsVal with
        | .error _ => none
        | .ok item =>
          match scanItemKeys item with
          | .error _ => none
          | .ok (some q) => some q
          | .ok none => scanKeys fields
      else scanKeys fields
    | none => scanKeys fields
  | _ => none

/-- Modelled from the spec's words for claim comparison: "inspect the known
numeric field names (priority order xauPrice, price, ask, lastPrice) first on
the first entry of a non-empty items list if present, otherwise on the
top-level mapping, returning the first present numeric value". -/
def specResolveMapping (fields : List (String × JVal)) : Option ℚ :=
  match dictLookup fields "items" with
  | some (.jarr (first :: _)) =>
    (match first with
     | .jobj ifs => scanKeys ifs
     | _ => none) <|> scanKeys fields
  | _ => scanKeys fields

/-! ### Number parsing shared by the fallback and the CSV fetcher -/

/-- Python `str.strip()`: whitespace trimmed from both ends. -/
def pyStrip (s : String) : String :=
  String.mk (((s.data.dropWhile Char.isWhitespace).reverse.dropWhile
    Char.isWhitespace).reverse)

/-- Decimal digits to a natural number (`int(...)` on an all-digit string). -/
def digitsToNat (cs : List Char) : Nat :=
  cs.foldl (fun a c => a * 10 + (c.toNat - 48)) 0

/-- Optional exponent suffix of a Python float literal (`e`/`E`, optional
sign, at least one digit, nothing after), `some 0` when absent. -/
def parseExpSuffix : List Char → Option Int
  | [] => some 0
  | c :: rest =>
    if c == 'e' || c == 'E' then
      let (sgn, ds) : Int × List Char :=
        match rest with
        | '+' :: r => (1, r)
        | '-' :: r => (-1, r)
        | r => (1, r)
      if !ds.isEmpty && ds.all Char.isDigit then
        some (sgn * (digitsToNat ds : Int))
      else none
    else none

/-- The rational `(-1)^neg * intD.fracD * 10^e`, assembled with integer
arithmetic so that it evaluates by kernel reduction. -/
def decimalToRat (neg : Bool) (intD fracD : List Char) (e : Int) : ℚ :=
  let num0 : Nat := digitsToNat intD * 10 ^ fracD.length + digitsToNat fracD
  let num1 : Nat := if 0 ≤ e then num0 * 10 ^ e.toNat else num0
  let den : Nat := if 0 ≤ e then 10 ^ fracD.length
    else 10 ^ fracD.length * 10 ^ (-e).toNat
  mkRat (if neg then -(num1 : Int) else (num1 : Int)) den

/-- `float(s)` on the decimal grammar: optional surrounding whitespace,
optional sign, digits with optional fractional part (or a bare fractional
part), optional exponent.  The value is the exact rational (the binary64
rounding of CPython is not modelled); the `inf`/`nan` spellings and digit
underscores are outside the model. -/
def parsePyFloat (s : String) : Option ℚ :=
  let body := (pyStrip s).data
  let (neg, cs) : Bool × List Char :=
    match body with
    | '+' :: r => (false, r)
    | '-' :: r => (true, r)
    | r => (false, r)
  let intD := cs.takeWhile Char.isDigit
  let rest1 := cs.dropWhile Char.isDigit
  match rest1 with
  | '.' :: rest2 =>
    let fracD := rest2.takeWhile Char.isDigit
    let rest3 := rest2.dropWhile Char.isDigit
    if intD.isEmpty && fracD.isEmpty then none
    else (parseExpSuffix rest3).map (decimalToRat neg intD fracD)
  | rest =>
    if intD.isEmpty then none
    else (parseExpSuffix rest).map (decimalToRat neg intD [])

/-! ### The widget-JS regex fallback

The fallback of `get_spot_usd_per_oz` (lines 54-67) applies `re.search` with
five `(?i)` patterns to the fetched script text.  The patterns are
transliterated into a small regex syntax and run by a backtracking matcher
with Python's semantics: leftmost match, greedy quantifiers, alternatives
tried left first. -/

/-- Regex syntax covering the constructs of the five patterns: character
classes, sequencing, alternation (greedy `?` is `alt a eps`), greedy star,
the word boundary `\b`, and the one capturing group. -/
inductive RE where
  | eps
  | cls (p : Char → Bool)
  | seq (a b : RE)
  | alt (a b : RE)
  | star (a : RE)
  | wb
  | grp (a : RE)

/-- Python regex word character (`\w`, ASCII range). -/
def isWordChar (c : Char) : Bool := c.isAlphanum || c == '_'

/-- Is there a `\b` boundary just before position `i`? -/
def wordBoundaryAt (s : List Char) (i : Nat) : Bool :=
  let prevW := if i == 0 then false else
    match s.get? (i - 1) with
    | some c => isWordChar c
    | none => false
  let curW := match s.get? i with
    | some c => isWordChar c
    | none => false
  prevW != curW

/-- Backtracking matcher: try `r` at position `i` of `s`, calling the
continuation `k` on the position after each candidate match, in the order
Python's engine tries them (greedy, leftmost alternatives first).  The result
is the span of the capturing group of the first overall success.  `fuel`
bounds recursion depth; star iterations must consume input. -/
def mrun : Nat → RE → List Char → Nat → (Nat → Option (Nat × Nat)) →
    Option (Nat × Nat)
  | 0, _, _, _, _ => none
  | _ + 1, .eps, _, i, k => k i
  | _ + 1, .cls p, s, i, k =>
    match s.get? i with
    | some c => if p c then k (i + 1) else none
    | none => none
  | f + 1, .seq a b, s, i, k => mrun f a s i (fun j => mrun f b s j k)
  | f + 1, .alt a b, s, i, k =>
    match mrun f a s i k with
    | some r => some r
    | none => mrun f b s i k
  | f + 1, .star a, s, i, k =>
    match mrun f a s i (fun j => if i < j then mrun f (.star a) s j k
        else none) with
    | some r => some r
    | none => k i
  | _ + 1, .wb, s, i, k => if wordBoundaryAt s i then k i else none
  | f + 1, .grp a, s, i, k =>
    mrun f a s i (fun j => (k j).map (fun _ => (i, j)))

/-- `re.search`: scan start positions left to right, return the capturing
group's characters of the first match. -/
def research (pat : RE) (s : String) : Option (List Char) :=
  ((List.range (s.data.length + 1)).findSome? (fun p =>
    mrun (20 * s.data.length + 400) pat s.data p (fun _ => some (0, 0)))).map
    (fun span => (s.data.drop span.1).take (span.2 - span.1))

/-- A case-insensitive literal, as under the `(?i)` flag. -/
def litCI (w : String) : RE :=
  w.data.foldr (fun c acc => .seq (.cls (fun x => x.toLower == c.toLower)) acc)
    .eps

/-- `x?` (greedy). -/
def reOpt (a : RE) : RE := .alt a .eps

/-- `\d` (ASCII). -/
def digitC : RE := .cls Char.isDigit

/-- `[\d]{1,3}`, greedy: prefer three digits, then two, then one. -/
def rep13 : RE := .seq digitC (reOpt (.seq digitC (reOpt digitC)))

/-- `(?:[,]\d{3})*`. -/
def commaGroups : RE :=
  .star (.seq (.cls (fun c => c == ',')) (.seq digitC (.seq digitC digitC)))

/-- `(?:\.\d+)?`. -/
def fracPart : RE :=
  reOpt (.seq (.cls (fun c => c == '.')) (.seq digitC (.star digitC)))

/-- The capturing group `([\d]{1,3}(?:[,]\d{3})*(?:\.\d+)?)`. -/
def numGroup : RE := .grp (.seq rep13 (.seq commaGroups fracPart))

/-- `"?`. -/
def quoteOpt : RE := reOpt (.cls (fun c => c == '"'))

/-- Python regex `\s` (ASCII range). -/
def pyRegexSpace (c : Char) : Bool :=
  c == ' ' || c == '\t' || c == '\n' || c == '\r' || c == '\x0b' || c == '\x0c'

/-- `\s*`. -/
def wsStar : RE := .star (.cls pyRegexSpace)

/-- `[:=]`. -/
def colonEq : RE := .cls (fun c => c == ':' || c == '=')

/-- Line 57: `(?i)\bUSD[^0-9]*([\d]{1,3}(?:[,]\d{3})*(?:\.\d+)?)\b`. -/
def patUSD : RE :=
  .seq .wb (.seq (litCI "USD")
    (.seq (.star (.cls (fun c => !c.isDigit))) (.seq numGroup .wb)))

/-- Lines 58-61: `(?i)"?<key>"?\s*[:=]\s*"?([\d]{1,3}(?:[,]\d{3})*(?:\.\d+)?)"?`. -/
def patKey (key : String) : RE :=
  .seq quoteOpt (.seq (litCI key) (.seq quoteOpt (.seq wsStar (.seq colonEq
    (.seq wsStar (.seq quoteOpt (.seq numGroup quoteOpt)))))))

/-- The key names of the scrape patterns in the order the source lists them
(lines 58-61): `xauPrice`, `price`, `lastPrice`, `ask`. -/
def scrapeKeyOrder : List String := ["xauPrice", "price", "lastPrice", "ask"]

/-- The five patterns of the fallback, in application order (lines 56-62). -/
def scrapePatterns : List RE := patUSD :: scrapeKeyOrder.map patKey

/-- `m.group(1).replace(",", "")`. -/
def stripCommas (cs : List Char) : List Char := cs.filter (fun c => !(c == ','))

/-- Lines 56-65: the first pattern whose search hits returns
`float(m.group(1).replace(",", ""))`.  (The captured text always lies in the
grammar `parsePyFloat` accepts, so the `float` call cannot raise here.) -/
def scrapeWidget (js_text : String) : Option ℚ :=
  scrapePatterns.findSome? (fun pat =>
    (research pat js_text).bind (fun g => parsePyFloat (String.mk
      (stripCommas g))))

/-- `get_spot_usd_per_oz()`, lines 36-68: each candidate endpoint's parsed
JSON (`none` when its fetch or `json.loads` raised), then the widget-JS text
(`none` when that fetch raised). -/
def get_spot_usd_per_oz (cands : List (Option JVal))
    (widget_js : Option String) : Option ℚ :=
  match cands.findSome? (fun c => c.bind parseCandidate) with
  | some q => some q
  | none => widget_js.bind scrapeWidget

/-! ### Dates -/

/-- A calendar date as `datetime.date` holds it.  Validity
(`1 <= year <= 9999` and a real calendar day) is a separate predicate,
mirroring the `ValueError` raised by the `date` constructor. -/
structure Date where
  y : Int
  m : Nat
  d : Nat
deriving DecidableEq

/-- Gregorian leap year, as `calendar.isleap` / `datetime` use it. -/
def isLeap (y : Int) : Bool :=
  y % 4 == 0 && (y % 100 != 0 || y % 400 == 0)

/-- Length of month `m` of year `y`. -/
def daysInMonth (y : Int) (m : Nat) : Nat :=
  if m == 2 then (if isLeap y then 29 else 28)
  else if m == 4 || m == 6 || m == 9 || m == 11 then 30
  else 31

/-- Does `date(y, m, d)` succeed?  `datetime` supports years 1..9999. -/
def validYMD (y : Int) (m d : Nat) : Bool :=
  1 ≤ y && y ≤ 9999 && 1 ≤ m && m ≤ 12 && 1 ≤ d && d ≤ daysInMonth y m

/-- `date(y, m, d)`: `none` is the constructor's `ValueError`. -/
def mkDate (y : Int) (m d : Nat) : Option Date :=
  if validYMD y m d then some ⟨y, m, d⟩ else none

/-- Day number of a date (proleptic Gregorian, epoch 1970-01-01), the standard
civil-from-days construction; date subtraction `(a - b).days` is
`toRataDays a - toRataDays b`. -/
def toRataDays (dt : Date) : Int :=
  let y : Int := if dt.m ≤ 2 then dt.y - 1 else dt.y
  let m : Int := dt.m
  let d : Int := dt.d
  let era : Int := (if 0 ≤ y then y else y - 399) / 400
  let yoe : Int := y - era * 400
  let doy : Int := (153 * (m + (if 2 < m then -3 else 9)) + 2) / 5 + d - 1
  let doe : Int := yoe * 365 + yoe / 4 - yoe / 100 + doy
  era * 146097 + doe - 719468

/-- `first_next - timedelta(days=1)`: the previous calendar day, `none` when
it would fall before `date.min` (0001-01-01), where Python raises
`OverflowError`. -/
def subOneDay (dt : Date) : Option Date :=
  if 1 < dt.d then some ⟨dt.y, dt.m, dt.d - 1⟩
  else if 1 < dt.m then some ⟨dt.y, dt.m - 1, daysInMonth dt.y (dt.m - 1)⟩
  else if 1 < dt.y then some ⟨dt.y - 1, 12, 31⟩
  else none

/-- `years_ago_date(n)` with `date.today()` passed explicitly.  The
`except ValueError` around the first constructor is the `match`; a
`ValueError`/`OverflowError` escaping the clamp branch is `none`. -/
def years_ago_date (today : Date) (n : Nat) : Option Date :=
  let y : Int := today.y - n
  match mkDate y today.m today.d with
  | some dt => some dt
  | none =>
    let first_next := if today.m == 12 then mkDate (y + 1) 1 1
                      else mkDate y (today.m + 1) 1
    first_next.bind subOneDay

/-! ### Nearest point -/

/-- `abs((d - target).days)`. -/
def dayDist (target : Date) (p : Date × ℚ) : Nat :=
  (toRataDays p.1 - toRataDays target).natAbs

/-- The `for d, v in series` loop of `closest_price`, carrying
`(best, best_delta)`. -/
def closestLoop (target : Date) : List (Date × ℚ) → Option ((Date × ℚ) × Nat) →
    Option ((Date × ℚ) × Nat)
  | [], acc => acc
  | p :: rest, acc =>
    let delta := dayDist target p
    match acc with
    | none => closestLoop target rest (some (p, delta))
    | some (b, bd) =>
      if delta < bd then closestLoop target rest (some (p, delta))
      else closestLoop target rest (some (b, bd))

/-- `closest_price(series, target)`, lines 104-111. -/
def closest_price (series : List (Date × ℚ)) (target : Date) :
    Option (Date × ℚ) :=
  if series.isEmpty then none
  else (closestLoop target series none).map (fun r => r.1)

/-! ### Historical CSV series -/

/-- `re.match(r"^\d{4}-\d{2}-\d{2}$", s)`. -/
def matchYMD (cs : List Char) : Bool :=
  match cs with
  | [a, b, c, d, h1, e, f, h2, g, i] =>
    a.isDigit && b.isDigit && c.isDigit && d.isDigit && h1 == '-' &&
    e.isDigit && f.isDigit && h2 == '-' && g.isDigit && i.isDigit
  | _ => false

/-- One iteration of the row loop of `get_stooq_series`, lines 78-86: `none`
is a `continue` (short row, failed date regex, or a `ValueError` from
`date(y,m,d)` / `float(close_s)` swallowed by the inner `except`). -/
def parseRow : List String → Option (Date × ℚ)
  | c0 :: _ :: _ :: _ :: c4 :: _ =>
    let d_s := pyStrip c0
    let close_s := pyStrip c4
    if matchYMD d_s.data then
      let y : Int := digitsToNat (d_s.data.take 4)
      let m : Nat := digitsToNat ((d_s.data.drop 5).take 2)
      let d : Nat := digitsToNat (d_s.data.drop 8)
      if validYMD y m d then
        (parsePyFloat close_s).map (fun q => (⟨y, m, d⟩, q))
      else none
    else none
  | _ => none

/-- Ascending date order (how Python compares `date` objects, hence the sort
key of line 87). -/
def rowLe (a b : Date × ℚ) : Prop :=
  a.1.y < b.1.y ∨ (a.1.y = b.1.y ∧
    (a.1.m < b.1.m ∨ (a.1.m = b.1.m ∧ a.1.d ≤ b.1.d)))

instance : DecidableRel rowLe := fun a b => by
  unfold rowLe; infer_instance

instance : IsTotal (Date × ℚ) rowLe :=
  ⟨fun a b => by unfold rowLe; omega⟩

instance : IsTrans (Date × ℚ) rowLe :=
  ⟨fun a b c hab hbc => by unfold rowLe at *; omega⟩

/-- `get_stooq_series()`, lines 71-90, on the already-fetched CSV split into
rows of column strings; `none` models the fetch itself raising, handled by
the outer `except Exception: return []`.  `next(rdr, None)` drops the header
row; the `out.sort(key=...)` is a stable sort by date. -/
def get_stooq_series : Option (List (List String)) → List (Date × ℚ)
  | none => []
  | some rows => List.insertionSort rowLe ((rows.drop 1).filterMap parseRow)

/-! ### Derived metrics and the calculation pipeline -/

def TROY_OUNCE_IN_GRAMS : ℚ := 31.1034768

/-- `spot_per_g = spot / TROY_OUNCE_IN_GRAMS`, line 131. -/
def spot_per_g (spot : ℚ) : ℚ := spot / TROY_OUNCE_IN_GRAMS

/-- `ounces_now = purchase_price / spot`, line 132. -/
def ounces_now (purchase_price spot : ℚ) : ℚ := purchase_price / spot

/-- `grams_now = purchase_price / spot_per_g`, line 133. -/
def grams_now (purchase_price spot : ℚ) : ℚ := purchase_price / spot_per_g spot

/-- Lines 125-133: the spot guard and the "today" metrics.  `none` is
`st.stop()` after the "Could not load current spot price" error. -/
def computeToday (spotOpt : Option ℚ) (purchase_price : ℚ) :
    Option (ℚ × ℚ × ℚ) :=
  match spotOpt with
  | none => none
  | some spot =>
    if spot ≤ 0 then none
    else some (spot_per_g spot, ounces_now purchase_price spot,
      grams_now purchase_price spot)

/-! ### Claims -/

/-- C9: with `purchase_price = 1000` and `spot = 2000` per troy ounce, the
derived metrics give `ounces_now = 0.5` and
`grams_now = 1000 / (2000 / 31.1034768) = 15.5517384 ≈ 15.55`. -/
theorem c9_metrics :
    ounces_now 1000 2000 = 0.5 ∧
    grams_now 1000 2000 = 15.5517384 ∧
    |grams_now 1000 2000 - 15.55| < 1 / 200 := by
  unfold ounces_now grams_now spot_per_g TROY_OUNCE_IN_GRAMS
  norm_num
  rw [abs_of_pos (by norm_num)]
  norm_num

/-- C10: the pipeline treats an absent or non-positive resolved spot price
as "spot unavailable" and stops (`none`) before computing any metric, and
whenever metrics are produced the divisors `spot` and `spot_per_g spot` used
by the divisions of lines 131-133 are strictly positive. -/
theorem c10_guard : ∀ (s : Option ℚ) (purchase : ℚ),
    ((s = none ∨ ∃ v, s = some v ∧ v ≤ 0) → computeToday s purchase = none) ∧
    (∀ r, computeToday s purchase = some r →
      ∃ spot, s = some spot ∧ 0 < spot ∧ 0 < spot_per_g spot ∧
        r = (spot_per_g spot, ounces_now purchase spot,
          grams_now purchase spot)) := by
  intro s purchase
  constructor
  · rintro (rfl | ⟨v, rfl, hv⟩)
    · rfl
    · simp [computeToday, hv]
  · intro r hr
    match s with
    | none => simp [computeToday] at hr
    | some spot =>
      by_cases h : spot ≤ 0
      · simp [computeToday, h] at hr
      · have hpos : 0 < spot := lt_of_not_le h
        refine ⟨spot, rfl, hpos, ?_, ?_⟩
        · unfold spot_per_g TROY_OUNCE_IN_GRAMS
          positivity
        · simp [computeToday, h] at hr
          exact hr.symm

/-- C10 witness: at the concrete inputs `some 2000` and `none` the guard
theorem's two hypotheses are dischargeable. -/
theorem c10_witness :
    computeToday none 1000 = none ∧
    (0 : ℚ) < spot_per_g 2000 := by
  refine ⟨(c10_guard none 1000).1 (Or.inl rfl), ?_⟩
  rcases (c10_guard (some 2000) 1000).2
      (spot_per_g 2000, ounces_now 1000 2000, grams_now 1000 2000) rfl with
    ⟨spot, hs, _, hg, hr⟩
  cases Option.some.inj hs
  exact hg

/-- C5 counterexample: on a body containing `"price": 2345.67` the fallback
returns 234.0 (the `[\d]{1,3}` integer part of the number pattern captures
only the first three digits when no comma grouping follows), not 2345.67 as
the claim states. -/
theorem c5_counterexample :
    scrapeWidget ("\"price\": 2345.67") = some 234 ∧ (234 : ℚ) ≠ 2345.67 := by
  constructor
  · decide
  · norm_num

/-- C5 amended: a body containing `"price": "2,345.67"` yields 2345.67 (the
thousands-separator comma is stripped before `float`), while a body
containing `"price": 2345.67` yields 234.0, the capture stopping after three
digits without comma grouping. -/
theorem c5_amended :
    scrapeWidget ("\"price\": \"2,345.67\"") = some 2345.67 ∧
    scrapeWidget ("\"price\": 2345.67") = some 234 := by
  constructor
  · rw [show scrapeWidget ("\"price\": \"2,345.67\"") = some (mkRat 234567 100)
      from by decide]
    norm_num [Rat.mkRat_eq_divInt, Rat.divInt_eq_div]
  · decide

/-- C4 counterexample: the source applies the key patterns in the order
`xauPrice, price, lastPrice, ask` (lines 58-61), not in the structured-API
order `xauPrice, price, ask, lastPrice` the claim asserts. -/
theorem c4_counterexample :
    scrapeKeyOrder ≠ ["xauPrice", "price", "ask", "lastPrice"] := by decide

/-- C4 amended: the fallback applies the currency-prefixed pattern first and
then the key patterns in the order `xauPrice, price, lastPrice, ask`; when
the first four patterns have no match and the `ask` pattern captures `g`,
the resolver returns `float` of `g` with commas stripped.  (A body matching
the `lastPrice` pattern always also matches the `price` pattern, since
`price` occurs inside `lastPrice` with an identical continuation, so the
claim's scenario of an `ask`/`lastPrice` race with no earlier match cannot
arise.) -/
theorem c4_amended : ∀ (s : String) (g : List Char),
    research patUSD s = none →
    research (patKey ("xauPrice")) s = none →
    research (patKey ("price")) s = none →
    research (patKey ("lastPrice")) s = none →
    research (patKey ("ask")) s = some g →
    scrapeWidget s = parsePyFloat (String.mk (stripCommas g)) := by
  intro s g h1 h2 h3 h4 h5
  simp only [scrapeWidget, scrapePatterns, scrapeKeyOrder, List.map_cons,
    List.map_nil, List.findSome?_cons, h1, h2, h3, h4, h5, Option.bind_none,
    Option.bind_some, Option.none_bind, Option.some_bind]
  cases parsePyFloat (String.mk (stripCommas g)) <;> simp [List.findSome?]

/-- C4 witness: on the body `ask: 220.5` only the `ask` pattern matches and
the fallback returns 220.5. -/
theorem c4_witness : scrapeWidget ("ask: 220.5") = some (mkRat 2205 10) := by
  rw [c4_amended ("ask: 220.5") ("220.5".data) (by decide) (by decide)
    (by decide) (by decide) (by decide)]
  decide

/-- C1 counterexample: on the mapping `{"items": 7, "price": 5}` — which has
no non-empty `items` list, so the claim prescribes the top-level scan and a
result of 5.0 — the code subscripts the truthy non-list `items` value,
raises, and abandons the candidate with no value. -/
theorem c1_counterexample :
    parseCandidate (.jobj [("items", .jnum 7), ("price", .jnum 5)]) = none ∧
    specResolveMapping [("items", .jnum 7), ("price", .jnum 5)] = some 5 := by
  constructor <;> decide

/-- Every scan key has more than one character, so on a one-character string
item (`obj["items"][0]` of a truthy string) no `k in item` test succeeds and
the key loop falls through without raising. -/
theorem scanItemKeys_singleton_str (c : Char) :
    scanItemKeys (JVal.jstr (String.mk [c])) = .ok none := by
  simp [scanItemKeys, PRIORITY_KEYS, hasSubChars, startsWithChars]

/-- Does the per-candidate `try` body of lines 42-50 raise on this mapping?
True exactly when `items` is present and truthy and either
`obj["items"][0]` itself raises (`items` a number, bool, null or dict) or
`item[k]` raises because a key name occurs in a string or list first
entry. -/
def candidateRaises (fields : List (String × JVal)) : Bool :=
  match dictLookup fields "items" with
  | some v =>
    truthy v &&
      (match sub0 v with
       | .error _ => true
       | .ok item =>
         match scanItemKeys item with
         | .error _ => true
         | .ok _ => false)
  | none => false

/-- C1 amended: for every JSON payload that is a mapping, the resolver
inspects the known numeric field names in the fixed priority order
`xauPrice, price, ask, lastPrice` — first on the first entry of a non-empty
`items` list if present, then (when no field matched there, when that first
entry is not a mapping, or when `items` is not a non-empty list) on the
top-level mapping — and returns the first present numeric value coerced to
float, except when the candidate's `try` body raises (`items` present and
truthy and either not subscriptable at index 0 — a number, bool, null or
mapping — or with a string or list first entry on which a key-name
occurrence makes `item[k]` raise): then the candidate is abandoned with no
value.  In particular, if both `xauPrice` and `price` are present, the
`xauPrice` value is returned. -/
theorem c1_priority : ∀ (fields : List (String × JVal)),
    parseCandidate (JVal.jobj fields) =
      (if candidateRaises fields then none else specResolveMapping fields) ∧
    (∀ q, dictLookup fields "items" = none →
      dictLookup fields "xauPrice" = some (JVal.jnum q) →
      parseCandidate (JVal.jobj fields) = some q) := by
  intro fields
  have main : parseCandidate (JVal.jobj fields) =
      (if candidateRaises fields then none
       else specResolveMapping fields) := by
    cases hit : dictLookup fields "items" with
    | none => simp [parseCandidate, specResolveMapping, candidateRaises, hit]
    | some v =>
      by_cases ht : truthy v = true
      · cases hs0 : sub0 v with
        | error e =>
          have hcr : candidateRaises fields = true := by
            simp [candidateRaises, hit, ht, hs0]
          rw [if_pos hcr]
          simp [parseCandidate, hit, ht, hs0]
        | ok item =>
          cases hsk : scanItemKeys item with
          | error e2 =>
            have hcr : candidateRaises fields = true := by
              simp [candidateRaises, hit, ht, hs0, hsk]
            rw [if_pos hcr]
            simp [parseCandidate, hit, ht, hs0, hsk]
          | ok oq =>
            have hcr : candidateRaises fields = false := by
              simp [candidateRaises, hit, ht, hs0, hsk]
            rw [if_neg (by simp [hcr])]
            cases v with
            | jnum q1 => simp [sub0] at hs0
            | jbool b1 => simp [sub0] at hs0
            | jnull => simp [sub0] at hs0
            | jobj fs1 => simp [sub0] at hs0
            | jstr s =>
              obtain ⟨cs⟩ := s
              cases cs with
              | nil => simp [sub0] at hs0
              | cons c cs2 =>
                have hitem : JVal.jstr (String.mk [c]) = item := by
                  simpa [sub0] using hs0
                subst hitem
                rw [scanItemKeys_singleton_str c] at hsk
                obtain rfl : none = oq := by simpa using hsk
                simp [parseCandidate, specResolveMapping, hit, ht, sub0,
                  scanItemKeys_singleton_str]
            | jarr xs =>
              cases xs with
              | nil => simp [sub0] at hs0
              | cons first rest =>
                have hitem : first = item := by simpa [sub0] using hs0
                subst hitem
                cases first with
                | jobj ifs =>
                  have hoq : scanKeys ifs = oq := by
                    simpa [scanItemKeys] using hsk
                  subst hoq
                  simp only [parseCandidate, specResolveMapping, hit, ht,
                    if_true, sub0, scanItemKeys]
                  cases scanKeys ifs <;> simp
                | jstr s2 =>
                  by_cases hc : (PRIORITY_KEYS.any (fun k =>
                      hasSubChars k.data s2.data)) = true
                  · simp only [scanItemKeys] at hsk
                    rw [if_pos hc] at hsk
                    simp at hsk
                  · simp only [scanItemKeys] at hsk
                    rw [if_neg hc] at hsk
                    obtain rfl : none = oq := by simpa using hsk
                    simp [parseCandidate, specResolveMapping, hit, ht, sub0,
                      scanItemKeys, hc]
                | jarr xs2 =>
                  by_cases hc : (PRIORITY_KEYS.any (fun k => xs2.any (fun w =>
                      match w with
                      | JVal.jstr s3 => s3 == k
                      | _ => false))) = true
                  · simp only [scanItemKeys] at hsk
                    rw [if_pos hc] at hsk
                    simp at hsk
                  · simp only [scanItemKeys] at hsk
                    rw [if_neg hc] at hsk
                    obtain rfl : none = oq := by simpa using hsk
                    simp [parseCandidate, specResolveMapping, hit, ht, sub0,
                      scanItemKeys, hc]
                | jnum q2 => simp [scanItemKeys] at hsk
                | jbool b2 => simp [scanItemKeys] at hsk
                | jnull => simp [scanItemKeys] at hsk
      · have ht2 : truthy v = false := by
          cases htv : truthy v with
          | false => rfl
          | true => exact absurd htv ht
        have hcr : candidateRaises fields = false := by
          simp [candidateRaises, hit, ht2]
        rw [if_neg (by simp [hcr])]
        cases v with
        | jarr xs =>
          cases xs with
          | nil => simp [parseCandidate, specResolveMapping, hit, ht2]
          | cons x xs2 => exact absurd (by simp [truthy]) ht
        | jnull => simp [parseCandidate, specResolveMapping, hit, ht2]
        | jbool b => simp [parseCandidate, specResolveMapping, hit, ht2]
        | jnum q => simp [parseCandidate, specResolveMapping, hit, ht2]
        | jstr s => simp [parseCandidate, specResolveMapping, hit, ht2]
        | jobj fs => simp [parseCandidate, specResolveMapping, hit, ht2]
  refine ⟨main, ?_⟩
  intro q hnone hx
  simp [parseCandidate, hnone, scanKeys, PRIORITY_KEYS, List.findSome?_cons,
    hx, isNumLike, numVal]

/-- C1 witness: with `items` absent and both `xauPrice` and `price` present,
`xauPrice` wins. -/
theorem c1_witness :
    parseCandidate (JVal.jobj [("xauPrice", JVal.jnum 2400),
      ("price", JVal.jnum 2000)]) = some 2400 := by
  exact (c1_priority [("xauPrice", JVal.jnum 2400),
    ("price", JVal.jnum 2000)]).2 2400 rfl rfl

/-- C8: the resolver and the fetcher absorb all per-source failures and
surface total failure as a typed absence: `get_spot_usd_per_oz` returns
`none` exactly when every structured candidate yields nothing (a failed
fetch, unparseable JSON, a swallowed exception or no matching field) and the
widget-JS fallback yields nothing; `get_stooq_series` returns the empty
series when its fetch fails.  Both are total functions: no exception escapes
to the caller. -/
theorem c8_absorbs_failures : ∀ (cands : List (Option JVal))
    (widget_js : Option String),
    (get_spot_usd_per_oz cands widget_js = none ↔
      ((∀ c ∈ cands, c.bind parseCandidate = none) ∧
        widget_js.bind scrapeWidget = none)) ∧
    get_stooq_series none = [] := by
  intro cands widget_js
  refine ⟨?_, rfl⟩
  unfold get_spot_usd_per_oz
  cases hfs : cands.findSome? (fun c => c.bind parseCandidate) with
  | some q =>
    simp only []
    constructor
    · intro hq; exact absurd hq (by simp)
    · intro ⟨hall, _⟩
      obtain ⟨c, hc, hval⟩ := List.exists_of_findSome?_eq_some hfs
      exact absurd (hall c hc) (by simp [hval])
  | none =>
    have hall := List.findSome?_eq_none_iff.mp hfs
    simp only []
    constructor
    · intro hb; exact ⟨hall, hb⟩
    · intro ⟨_, hb⟩; exact hb

/-- Months other than February have the same length in every year. -/
theorem daysInMonth_ne_two {m : Nat} (y y' : Int) (hm : m ≠ 2) :
    daysInMonth y m = daysInMonth y' m := by
  have h2 : (m == 2) = false := by simp [hm]
  simp [daysInMonth, h2]

/-- February is at most 29 days long. -/
theorem daysInMonth_two_le (y : Int) : daysInMonth y 2 ≤ 29 := by
  cases h : isLeap y <;> simp [daysInMonth, h]

/-- C3 counterexample: the claim quantifies over every non-negative `n`, but
for `n` at least the current year the shifted year falls outside the
supported calendar (year `0` here), both `date` constructions raise
`ValueError`, and `years_ago_date` propagates the exception instead of
returning any date. -/
theorem c3_counterexample : years_ago_date ⟨2024, 2, 29⟩ 2024 = none := by
  decide

/-- C3 amended: for every valid `today` and every `n` with
`today.year - n ≥ 1`, `years_ago_date` returns the year-shifted date with
month and day preserved; the shifted date is invalid only when today is
Feb 29 and the target year is not a leap year, and then the result is
clamped to Feb 28 of the target year. -/
theorem c3_anniversary : ∀ (today : Date) (n : Nat),
    validYMD today.y today.m today.d = true →
    1 ≤ today.y - n →
    (validYMD (today.y - n) today.m today.d = true →
      years_ago_date today n = some ⟨today.y - n, today.m, today.d⟩) ∧
    (validYMD (today.y - n) today.m today.d = false →
      today.m = 2 ∧ today.d = 29 ∧ isLeap (today.y - n) = false ∧
      years_ago_date today n = some ⟨today.y - n, 2, 28⟩) := by
  rintro ⟨ty, tm, td⟩ n hvalid hy
  dsimp only at hvalid hy ⊢
  constructor
  · intro hv
    simp [years_ago_date, mkDate, hv]
  · intro hinv
    simp only [validYMD, Bool.and_eq_true, decide_eq_true_eq] at hvalid
    have hd6 : daysInMonth (ty - n) tm < td := by
      by_contra hle
      push_neg at hle
      have hv : validYMD (ty - n) tm td = true := by
        simp only [validYMD, Bool.and_eq_true, decide_eq_true_eq]
        omega
      rw [hv] at hinv
      cases hinv
    by_cases hm2 : tm = 2
    · subst hm2
      have hL : isLeap (ty - n) = false := by
        cases hL0 : isLeap (ty - n) with
        | false => rfl
        | true =>
          exfalso
          have h29 : daysInMonth (ty - n) 2 = 29 := by
            simp [daysInMonth, hL0]
          have h29t : daysInMonth ty 2 ≤ 29 := daysInMonth_two_le ty
          omega
      have hdim : daysInMonth (ty - n) 2 = 28 := by
        simp [daysInMonth, hL]
      have hd29 : td = 29 := by
        have h29t : daysInMonth ty 2 ≤ 29 := daysInMonth_two_le ty
        omega
      subst hd29
      refine ⟨rfl, rfl, hL, ?_⟩
      have hfn : validYMD (ty - n) 3 1 = true := by
        simp only [validYMD, Bool.and_eq_true, decide_eq_true_eq]
        have h31 : daysInMonth (ty - n) 3 = 31 := by simp [daysInMonth]
        omega
      simp [years_ago_date, mkDate, hinv, hfn, subOneDay, hdim]
    · exfalso
      have heq : daysInMonth (ty - n) tm = daysInMonth ty tm :=
        daysInMonth_ne_two (ty - n) ty hm2
      omega

/-- C3 witness: one year before 2024-02-29 is 2023-02-28 (the claim's
clamping example), obtained from the amended theorem at that input. -/
theorem c3_witness : years_ago_date ⟨2024, 2, 29⟩ 1 = some ⟨2023, 2, 28⟩ := by
  have h := (c3_anniversary ⟨2024, 2, 29⟩ 1 (by decide) (by decide)).2
    (by decide)
  have hres := h.2.2.2
  norm_num at hres
  exact hres

/-- Every series point comes from an accepted row, and its price is the
`float` of that row's fifth column: the code never checks the sign. -/
theorem parseRow_price {row : List String} {p : Date × ℚ}
    (h : parseRow row = some p) :
    parsePyFloat (pyStrip (row.getD 4 "")) = some p.2 := by
  match row with
  | [] => exact absurd h (by simp [parseRow])
  | [_] => exact absurd h (by simp [parseRow])
  | [_, _] => exact absurd h (by simp [parseRow])
  | [_, _, _] => exact absurd h (by simp [parseRow])
  | [_, _, _, _] => exact absurd h (by simp [parseRow])
  | c0 :: _ :: _ :: _ :: c4 :: rest =>
    simp only [parseRow] at h
    by_cases h1 : matchYMD (pyStrip c0).data
    · rw [if_pos h1] at h
      by_cases h2 : validYMD (digitsToNat ((pyStrip c0).data.take 4))
          (digitsToNat (((pyStrip c0).data.drop 5).take 2))
          (digitsToNat ((pyStrip c0).data.drop 8))
      · rw [if_pos h2] at h
        obtain ⟨q, hq, hpq⟩ := Option.map_eq_some'.mp h
        show parsePyFloat (pyStrip c4) = some p.2
        rw [hq]
        cases hpq
        rfl
      · rw [if_neg h2] at h
        cases h
    · rw [if_neg h1] at h
      cases h

/-- C6 counterexample: a CSV row whose close column is `-5` parses as a
float and is kept, so the returned series contains a point with a
non-positive price, contradicting the claimed strict positivity. -/
theorem c6_counterexample :
    get_stooq_series (some [["Date", "Open", "High", "Low", "Close"],
      ["2023-01-01", "0", "0", "0", "-5"]]) = [(⟨2023, 1, 1⟩, -5)] ∧
    ¬(0 < (-5 : ℚ)) := by
  constructor
  · decide
  · norm_num

/-- C6 amended: every point of a returned series arises from a data row
whose fifth column parses as a float, and the point's price is exactly that
parsed value — which the code does not require to be positive. -/
theorem c6_prices_parsed : ∀ (rows : List (List String)) (p : Date × ℚ),
    p ∈ get_stooq_series (some rows) →
    ∃ row, row ∈ rows.drop 1 ∧ parseRow row = some p ∧
      parsePyFloat (pyStrip (row.getD 4 "")) = some p.2 := by
  intro rows p hp
  have hmem : p ∈ (rows.drop 1).filterMap parseRow :=
    ((List.perm_insertionSort rowLe _).mem_iff).mp hp
  obtain ⟨row, hrow, hparse⟩ := List.mem_filterMap.mp hmem
  exact ⟨row, hrow, hparse, parseRow_price hparse⟩

/-- C6 witness: the amended theorem applied to the single-row series with
close column `-5`. -/
theorem c6_witness : ∃ row,
    row ∈ ([["Date", "Open", "High", "Low", "Close"],
      ["2023-01-01", "0", "0", "0", "-5"]].drop 1) ∧
    parseRow row = some (⟨2023, 1, 1⟩, -5) ∧
    parsePyFloat (pyStrip (row.getD 4 "")) = some (-5) := by
  exact c6_prices_parsed
    [["Date", "Open", "High", "Low", "Close"],
      ["2023-01-01", "0", "0", "0", "-5"]]
    (⟨2023, 1, 1⟩, -5) (by decide)

/-- `find?` on a cons whose head satisfies the predicate. -/
theorem find?_cons_true {α : Type} (p : α → Bool) (a : α) (l : List α)
    (h : p a = true) : (a :: l).find? p = some a := by
  simp [List.find?_cons, h]

/-- `find?` on a cons whose head fails the predicate. -/
theorem find?_cons_false {α : Type} (p : α → Bool) (a : α) (l : List α)
    (h : p a = false) : (a :: l).find? p = l.find? p := by
  simp [List.find?_cons, h]

/-- Accumulator invariant of the `closest_price` loop: starting from a
current best `b` (with its recorded distance), the loop returns the first
element of `b :: l` attaining the minimum distance over `b :: l`. -/
theorem closestLoop_spec (target : Date) :
    ∀ (l : List (Date × ℚ)) (b : Date × ℚ),
    ∃ r, closestLoop target l (some (b, dayDist target b)) =
        some (r, dayDist target r) ∧
      (r = b ∨ r ∈ l) ∧
      dayDist target r ≤ dayDist target b ∧
      (∀ q ∈ l, dayDist target r ≤ dayDist target q) ∧
      (b :: l).find? (fun q => dayDist target q == dayDist target r) =
        some r := by
  intro l
  induction l with
  | nil =>
    intro b
    refine ⟨b, rfl, Or.inl rfl, le_refl _, by simp, ?_⟩
    exact List.find?_cons_of_pos _ (by simp)
  | cons x xs ih =>
    intro b
    by_cases h : dayDist target x < dayDist target b
    · obtain ⟨r, hloop, hmem, hlex, hall, hfind⟩ := ih x
      refine ⟨r, ?_, ?_, ?_, ?_, ?_⟩
      · rw [show closestLoop target (x :: xs) (some (b, dayDist target b)) =
          closestLoop target xs (some (x, dayDist target x)) from by
            simp [closestLoop, h]]
        exact hloop
      · rcases hmem with rfl | hm
        · exact Or.inr (List.mem_cons_self _ _)
        · exact Or.inr (List.mem_cons_of_mem _ hm)
      · exact le_of_lt (lt_of_le_of_lt hlex h)
      · intro q hq
        rcases List.mem_cons.mp hq with rfl | hq'
        · exact hlex
        · exact hall q hq'
      · have hb : (dayDist target b == dayDist target r) = false := by
          simp only [beq_eq_false_iff_ne, ne_eq]
          intro he
          have hcon := lt_of_le_of_lt hlex h
          rw [he] at hcon
          exact absurd hcon (lt_irrefl _)
        rw [find?_cons_false
          (fun q => dayDist target q == dayDist target r) b (x :: xs) hb]
        exact hfind
    · obtain ⟨r, hloop, hmem, hleb, hall, hfind⟩ := ih b
      have hbx : dayDist target b ≤ dayDist target x := not_lt.mp h
      refine ⟨r, ?_, ?_, hleb, ?_, ?_⟩
      · rw [show closestLoop target (x :: xs) (some (b, dayDist target b)) =
          closestLoop target xs (some (b, dayDist target b)) from by
            simp [closestLoop, h]]
        exact hloop
      · rcases hmem with rfl | hm
        · exact Or.inl rfl
        · exact Or.inr (List.mem_cons_of_mem _ hm)
      · intro q hq
        rcases List.mem_cons.mp hq with rfl | hq'
        · exact le_trans hleb hbx
        · exact hall q hq'
      · by_cases hbm : (dayDist target b == dayDist target r) = true
        · have h1 : (b :: xs).find?
              (fun q => dayDist target q == dayDist target r) = some b :=
            find?_cons_true _ _ _ hbm
          rw [hfind] at h1
          have hrb : r = b := Option.some.inj h1
          subst hrb
          exact find?_cons_true _ _ _ (by simp)
        · have hbf : (dayDist target b == dayDist target r) = false :=
            Bool.eq_false_iff.mpr hbm
          have hner : dayDist target b ≠ dayDist target r := by
            simpa [beq_eq_false_iff_ne] using hbf
          have hrb : dayDist target r < dayDist target b :=
            lt_of_le_of_ne hleb (fun he => hner he.symm)
          have hx : (dayDist target x == dayDist target r) = false := by
            simp only [beq_eq_false_iff_ne, ne_eq]
            intro he
            have hcon := lt_of_lt_of_le hrb hbx
            rw [he] at hcon
            exact absurd hcon (lt_irrefl _)
          rw [find?_cons_false
            (fun q => dayDist target q == dayDist target r) b xs hbf] at hfind
          rw [find?_cons_false
            (fun q => dayDist target q == dayDist target r) b (x :: xs) hbf,
            find?_cons_false
              (fun q => dayDist target q == dayDist target r) x xs hx]
          exact hfind

/-- C2: `closest_price` returns `none` exactly on the empty series, and on a
non-empty series it returns a member at minimal absolute day-distance to the
target; on ties the first point encountered in the scan wins (the returned
point is the first element whose distance equals the minimum).  On the
claim's example series the 2023-01-10 point (distance 3) beats 2023-01-01
(distance 6). -/
theorem c2_nearest : ∀ (series : List (Date × ℚ)) (target : Date),
    (closest_price series target = none ↔ series = []) ∧
    (∀ p, closest_price series target = some p →
      p ∈ series ∧
      (∀ q ∈ series, dayDist target p ≤ dayDist target q) ∧
      series.find? (fun q => dayDist target q == dayDist target p) =
        some p) := by
  intro series target
  cases series with
  | nil =>
    exact ⟨by simp [closest_price], fun p hp =>
      absurd hp (by simp [closest_price])⟩
  | cons x xs =>
    obtain ⟨r, hloop, hmem, hlex, hall, hfind⟩ := closestLoop_spec target xs x
    have hcp : closest_price (x :: xs) target = some r := by
      unfold closest_price
      rw [if_neg (by simp)]
      rw [show closestLoop target (x :: xs) none =
        closestLoop target xs (some (x, dayDist target x)) from rfl]
      rw [hloop]
      rfl
    constructor
    · constructor
      · intro hn
        rw [hcp] at hn
        cases hn
      · intro hn
        cases hn
    · intro p hp
      rw [hcp] at hp
      cases Option.some.inj hp
      refine ⟨?_, ?_, hfind⟩
      · rcases hmem with rfl | hm
        · exact List.mem_cons_self _ _
        · exact List.mem_cons_of_mem _ hm
      · intro q hq
        rcases List.mem_cons.mp hq with rfl | hq'
        · exact hlex
        · exact hall q hq'

/-- C2 witness: the claim's example — target 2023-01-07 over the series
[(2023-01-01, 100), (2023-01-10, 110)] picks (2023-01-10, 110). -/
theorem c2_witness :
    closest_price [(⟨2023, 1, 1⟩, 100), (⟨2023, 1, 10⟩, 110)] ⟨2023, 1, 7⟩ =
      some (⟨2023, 1, 10⟩, 110) := by decide

/-- C7: the series the fetcher returns consists of exactly the data rows
(header skipped) that have at least 5 columns, whose first column matches the
strict `YYYY-MM-DD` pattern and forms a valid calendar date, and whose fifth
column parses as a float — and it is sorted ascending by date, whatever the
input order. -/
theorem c7_rows : ∀ (rows : List (List String)),
    (get_stooq_series (some rows)).Perm ((rows.drop 1).filterMap parseRow) ∧
    List.Pairwise rowLe (get_stooq_series (some rows)) ∧
    (∀ row : List String, (parseRow row).isSome ↔
      (5 ≤ row.length ∧
        matchYMD (pyStrip (row.getD 0 "")).data = true ∧
        validYMD (digitsToNat ((pyStrip (row.getD 0 "")).data.take 4))
          (digitsToNat (((pyStrip (row.getD 0 "")).data.drop 5).take 2))
          (digitsToNat ((pyStrip (row.getD 0 "")).data.drop 8)) = true ∧
        (parsePyFloat (pyStrip (row.getD 4 ""))).isSome)) := by
  intro rows
  refine ⟨List.perm_insertionSort rowLe _, List.sorted_insertionSort rowLe _, ?_⟩
  intro row
  match row with
  | [] => simp [parseRow]
  | [_] => simp [parseRow]
  | [_, _] => simp [parseRow]
  | [_, _, _] => simp [parseRow]
  | [_, _, _, _] => simp [parseRow]
  | c0 :: c1 :: c2 :: c3 :: c4 :: rest =>
    show (parseRow (c0 :: c1 :: c2 :: c3 :: c4 :: rest)).isSome ↔
      (5 ≤ (c0 :: c1 :: c2 :: c3 :: c4 :: rest).length ∧
        matchYMD (pyStrip c0).data = true ∧
        validYMD (digitsToNat ((pyStrip c0).data.take 4))
          (digitsToNat (((pyStrip c0).data.drop 5).take 2))
          (digitsToNat ((pyStrip c0).data.drop 8)) = true ∧
        (parsePyFloat (pyStrip c4)).isSome)
    have hlen : 5 ≤ (c0 :: c1 :: c2 :: c3 :: c4 :: rest).length := by
      simp
    by_cases h1 : matchYMD (pyStrip c0).data = true
    · by_cases h2 : validYMD (digitsToNat ((pyStrip c0).data.take 4))
          (digitsToNat (((pyStrip c0).data.drop 5).take 2))
          (digitsToNat ((pyStrip c0).data.drop 8)) = true
      · simp [parseRow, h1, h2, hlen, Option.isSome_map]
      · simp [parseRow, h1, h2, hlen]
    · simp [parseRow, h1, hlen]

/-- C7 witness: the out-of-order example input with malformed rows is
filtered and returned sorted ascending. -/
theorem c7_witness :
    get_stooq_series (some [["Date", "Open", "High", "Low", "Close"],
      ["2023-01-02", "1", "1", "1", "5.5"], ["2023-01-01", "1", "1", "1", "4"],
      ["bad", "1", "1", "1", "4"], ["2023-13-40", "1", "1", "1", "4"],
      ["short"], ["2023-01-03", "1", "1", "1", "x"]]) =
      [(⟨2023, 1, 1⟩, 4), (⟨2023, 1, 2⟩, mkRat 55 10)] := by decide
